import Mathlib

/-!
# rusq/httpex: HTTP middlewares, verified against their specification

A shallow embedding of `httpex.go`, `handlers.go` and `vue_spa.go`.

* A Go `string` is a `Str`, a list of characters; `len`, `strings.HasSuffix` and
  `strings.HasPrefix` are written as in the Go library.
* `http.ResponseWriter` is an interface: it is the class `ResponseWriter`, and
  a handler is a function over any implementation of it.  `statusRecorder` is
  one implementation (wrapping another), `Response` (the writer of the HTTP
  server) is another.
* Everything else a handler can touch (the process-wide counter, the clock, the
  output of the loggers) is the `World`, passed explicitly.  A handler that
  does not return (it panics) yields `none`.
* Of the Go library, `io/fs` (`ValidPath`, `Sub`, sub-views) and `net/http`
  (`Error`, `NotFound`, `StripPrefix`, `http.FS`, the request multiplexer) are
  modelled as far as the package uses them.  The multiplexer is modelled on
  plain patterns and requests with an empty `URL.RawPath`, where its versions
  agree on the route; `http.FileServer` is a parameter of the constructors.
-/

namespace Httpex

/-! ## Strings -/

/-- A Go string. -/
abbrev Str := List Char

/-- Go `strings.HasSuffix(s, suffix)`:
`len(s) >= len(suffix) && s[len(s)-len(suffix):] == suffix`. -/
def HasSuffix (s suffix : Str) : Bool :=
  decide (s.length ≥ suffix.length) && (s.drop (s.length - suffix.length) == suffix)

/-- Go `strings.HasPrefix(s, p)`: `len(s) >= len(p) && s[:len(p)] == p`. -/
def HasPrefix (s p : Str) : Bool :=
  decide (s.length ≥ p.length) && (s.take p.length == p)

/-- Go `strings.TrimPrefix(s, p)`. -/
def TrimPrefix (s p : Str) : Str :=
  if HasPrefix s p then s.drop p.length else s

/-! ## The response writer interface -/

/-- The interface `http.ResponseWriter`, as far as the package uses it:
`Header().Set`, `WriteHeader` and `Write`. -/
class ResponseWriter (W : Type) where
  HeaderSet : W → Str → Str → W
  WriteHeader : W → Int → W
  Write : W → Str → W

/-- The response writer of the HTTP server: the first `WriteHeader` fixes the
status, later ones are ignored; a `Write` before any `WriteHeader` implies
`WriteHeader(200)`.  Status codes are taken in the range 100..999 the server
accepts. -/
structure Response where
  header : List (Str × Str)
  wroteHeader : Bool
  status : Int
  body : Str
deriving DecidableEq, Repr

/-- The writer a request starts with: nothing written yet. -/
def Response.fresh : Response :=
  { header := [], wroteHeader := false, status := 0, body := [] }

/-- Go `w.Header().Set(k, v)`. -/
def Response.HeaderSet (w : Response) (k v : Str) : Response :=
  { w with header := (k, v) :: w.header.filter (fun kv => kv.1 != k) }

/-- Go `w.WriteHeader(code)` on the server's writer. -/
def Response.WriteHeader (w : Response) (code : Int) : Response :=
  if w.wroteHeader then w else { w with wroteHeader := true, status := code }

/-- Go `w.Write(b)` on the server's writer. -/
def Response.Write (w : Response) (b : Str) : Response :=
  let w1 := if w.wroteHeader then w else w.WriteHeader 200
  { w1 with body := w1.body ++ b }

instance : ResponseWriter Response where
  HeaderSet := Response.HeaderSet
  WriteHeader := Response.WriteHeader
  Write := Response.Write

/-! ## Requests, contexts, the world -/

/-- A key of `context.WithValue`.  `reqIDkey` is the package's own key, of the
unexported type `reqID`; no other package can build it. -/
inductive Key where
  | reqIDkey
  | other (n : Nat)
deriving DecidableEq, Repr

/-- A value stored in a context (Go `any`): a `RequestID`, or a value of some
other dynamic type. -/
inductive Value where
  | RequestID (id : Str)
  | other (n : Nat)
deriving DecidableEq, Repr

/-- A `context.Context`: the background context, a context derived by
`context.WithValue`, or one derived in a way that leaves the values alone
(cancellation, deadline). -/
inductive Context where
  | background
  | withValue (parent : Context) (key : Key) (val : Value)
  | derived (parent : Context)
deriving DecidableEq, Repr

/-- Go `ctx.Value(key)`: the value of the nearest enclosing `WithValue` with
that key, `nil` (here `none`) when there is none. -/
def Context.Value : Context → Key → Option Value
  | .background, _ => none
  | .withValue parent k v, key => if k = key then some v else parent.Value key
  | .derived parent, key => parent.Value key

/-- The fields of `*http.Request` the package reads.  `Path` is `URL.Path`;
requests are those whose `URL.RawPath` is empty (a path without escapes that
the default encoding would not produce). -/
structure Request where
  Method : Str
  Path : Str
  RemoteAddr : Str
  UserAgent : Str
  ctx : Context
deriving DecidableEq, Repr

/-- A `*log.Logger`; `stdLogger` is the one behind `log.Printf`. -/
abbrev Logger := Nat

/-- The standard logger of package `log`. -/
def stdLogger : Logger := 0

/-- The state outside the response writer. -/
structure World where
  -- the value of `var counter atomic.Int64`
  counter : Int
  -- the monotonic clock, in nanoseconds
  clock : Int
  -- the records printed so far, oldest first, each with its logger
  log : List (Logger × Str)
deriving DecidableEq, Repr

/-- Go `lg.Printf(...)` with the message already formatted. -/
def Logger.Printf (lg : Logger) (msg : Str) (s : World) : World :=
  { s with log := s.log ++ [(lg, msg)] }

/-- An `http.Handler` serving on writers of type `W`; `none` when it panics.
By the contract of `http.Handler` the request is not modified. -/
abbrev Handler (W : Type) := W → Request → World → Option (W × World)

/-! ## net/http helpers used by the package -/

/-- Go `http.Error(w, error, code)`: sets the content type headers, writes the
status and prints the message followed by a newline (`fmt.Fprintln`). -/
def http.Error {W : Type} [ResponseWriter W] (w : W) (error : Str) (code : Int) : W :=
  let w := ResponseWriter.HeaderSet w "Content-Type".toList "text/plain; charset=utf-8".toList
  let w := ResponseWriter.HeaderSet w "X-Content-Type-Options".toList "nosniff".toList
  let w := ResponseWriter.WriteHeader w code
  ResponseWriter.Write w (error ++ ['\n'])

/-- Go `http.NotFound(w, r)`: `Error(w, "404 page not found", StatusNotFound)`. -/
def http.NotFound {W : Type} [ResponseWriter W] (w : W) (_r : Request) : W :=
  http.Error w "404 page not found".toList 404

/-! ## httpex.go -/

/-- Source `Neuter` (httpex.go:17-28). -/
def Neuter {W : Type} [ResponseWriter W] (path : Str) (next : Handler W) : Handler W :=
  let rootLen := path.length
  fun w r s =>
    if HasSuffix r.Path path && decide (r.Path.length > rootLen) then
      let s := Logger.Printf stdLogger ("neutralised: ".toList ++ r.Path) s
      some (http.NotFound w r, s)
    else
      next w r s

/-- Source `statusRecorder` (httpex.go:32-35): the wrapped writer (the embedded
field `http.ResponseWriter`) and the recorded status. -/
structure statusRecorder (W : Type) where
  ResponseWriter : W
  Status : Int
deriving DecidableEq, Repr

/-- Source `(*statusRecorder).WriteHeader` (httpex.go:37-40). -/
def statusRecorder.WriteHeader {W : Type} [Httpex.ResponseWriter W]
    (sr : statusRecorder W) (status : Int) : statusRecorder W :=
  let sr := { sr with Status := status }
  { sr with ResponseWriter := Httpex.ResponseWriter.WriteHeader sr.ResponseWriter status }

/-- The recorder as an `http.ResponseWriter`: `WriteHeader` is its own method,
`Header` and `Write` are promoted from the embedded writer. -/
instance {W : Type} [Httpex.ResponseWriter W] : Httpex.ResponseWriter (statusRecorder W) where
  HeaderSet sr k v :=
    { sr with ResponseWriter := Httpex.ResponseWriter.HeaderSet sr.ResponseWriter k v }
  WriteHeader := statusRecorder.WriteHeader
  Write sr b := { sr with ResponseWriter := Httpex.ResponseWriter.Write sr.ResponseWriter b }

/-- One call a handler makes on its response writer. -/
inductive WCall where
  | WriteHeader (status : Int)
  | Write (b : Str)
  | HeaderSet (k v : Str)
deriving DecidableEq, Repr

/-- Performs one call on a writer. -/
def WCall.run {W : Type} [Httpex.ResponseWriter W] (w : W) : WCall → W
  | .WriteHeader status => Httpex.ResponseWriter.WriteHeader w status
  | .Write b => Httpex.ResponseWriter.Write w b
  | .HeaderSet k v => Httpex.ResponseWriter.HeaderSet w k v

/-- Performs a sequence of calls, in order. -/
def runCalls {W : Type} [Httpex.ResponseWriter W] (w : W) (cs : List WCall) : W :=
  cs.foldl WCall.run w

/-- The handler that makes the calls `cs` on its writer and returns. -/
def callsHandler {W : Type} [Httpex.ResponseWriter W] (cs : List WCall) : Handler W :=
  fun w _ s => some (runCalls w cs, s)

/-- Source `RUnknown` (httpex.go:48). -/
def RUnknown : Str := "unknown".toList

/-- Source `newReqIDContext` (httpex.go:50-52). -/
def newReqIDContext (parent : Context) (id : Str) : Context :=
  Context.withValue parent Key.reqIDkey (Value.RequestID id)

/-- Source `ContextRequestID` (httpex.go:54-57): the type assertion
`ctx.Value(reqIDkey).(RequestID)`, which yields the zero value and `false`
when the value is absent or of another type. -/
def ContextRequestID (ctx : Context) : Str × Bool :=
  match ctx.Value Key.reqIDkey with
  | some (Value.RequestID id) => (id, true)
  | _ => ([], false)

/-- No `WithValue` in the chain of the context uses the key `reqIDkey`: no
correlation ID was ever attached. -/
def Context.neverAttached : Context → Bool
  | .background => true
  | .withValue parent k _ => (k != Key.reqIDkey) && parent.neverAttached
  | .derived parent => parent.neverAttached

/-- Reduction of an integer to the range of `int64` (two's complement). -/
def wrapInt64 (x : Int) : Int := (x + 2 ^ 63) % 2 ^ 64 - 2 ^ 63

/-- Go `counter.Add(delta)` on the `atomic.Int64` counter: the new value, and
the world holding it. -/
def counterAdd (s : World) (delta : Int) : Int × World :=
  let v := wrapInt64 (s.counter + delta)
  (v, { s with counter := v })

/-- The character of a decimal digit. -/
def digitChar (d : Nat) : Char := Char.ofNat (48 + d)

/-- The digit loop of `strconv.FormatInt` in base 10: digits are produced from
the least significant one and put in front of `acc`. -/
def formatBits : Nat → Nat → Str → Str
  | 0, _, acc => acc
  | fuel + 1, n, acc =>
    if n < 10 then digitChar n :: acc
    else formatBits fuel (n / 10) (digitChar (n % 10) :: acc)

/-- Go `strconv.FormatUint(n, 10)`. -/
def FormatUint (n : Nat) : Str := formatBits (n + 1) n []

/-- Go `strconv.FormatInt(i, 10)`, also the verb `%d`. -/
def FormatInt (i : Int) : Str :=
  if i < 0 then '-' :: FormatUint i.natAbs else FormatUint i.natAbs

/-- The value of a decimal digit character. -/
def digitVal (c : Char) : Option Nat :=
  if 48 ≤ c.toNat ∧ c.toNat ≤ 57 then some (c.toNat - 48) else none

/-- Reads a run of decimal digits, most significant first. -/
def parseDigits : Str → Nat → Option Nat
  | [], acc => some acc
  | c :: cs, acc =>
    match digitVal c with
    | none => none
    | some d => parseDigits cs (acc * 10 + d)

/-- Go `strconv.ParseInt(s, 10, 64)`: an optional sign, at least one digit, a
value in the range of `int64`; `none` stands for the error result. -/
def ParseInt (s : Str) : Option Int :=
  match s with
  | [] => none
  | c :: cs =>
    if c = '-' then
      if cs = [] then none
      else (parseDigits cs 0).bind (fun n => if n ≤ 2 ^ 63 then some (-(n : Int)) else none)
    else if c = '+' then
      if cs = [] then none
      else (parseDigits cs 0).bind (fun n => if n < 2 ^ 63 then some (n : Int) else none)
    else (parseDigits (c :: cs) 0).bind (fun n => if n < 2 ^ 63 then some (n : Int) else none)

/-- The correlation ID of `LogMiddleware` (httpex.go:66):
`RequestID(strconv.FormatInt(counter.Add(1), 10))`. -/
def nextReqID (s : World) : Str × World :=
  let (v, s) := counterAdd s 1
  (FormatInt v, s)

/-- The IDs of `n` generations, taken one after the other in the order in
which their increments take effect. -/
def genIDs : Nat → World → List Str × World
  | 0, s => ([], s)
  | n + 1, s =>
    let (id, s) := nextReqID s
    let (ids, s) := genIDs n s
    (id :: ids, s)

/-- Go `time.Since(start)` read at clock value `now`: the difference,
saturated to the range of `int64` nanoseconds. -/
def Since (start now : Int) : Int :=
  max (-(2 ^ 63)) (min (2 ^ 63 - 1) (now - start))

/-- Go `Duration.Milliseconds`: whole milliseconds, rounded toward zero. -/
def Milliseconds (d : Int) : Int := Int.tdiv d 1000000

/-- The verb `%5d`: decimal, padded with blanks on the left to width 5. -/
def fmt5d (i : Int) : Str :=
  List.replicate (5 - (FormatInt i).length) ' ' ++ FormatInt i

/-- Source `RequestIPAddr` (httpex.go:73-75). -/
def RequestIPAddr (r : Request) : Str := r.RemoteAddr

/-- The message of the log call in `LogMiddleware` (httpex.go:69), format
`"[%s] HTTP %s %s - %d %5dms (%s) %s"`. -/
def logFormat (reqID method path : Str) (status ms : Int) (addr ua : Str) : Str :=
  "[".toList ++ reqID ++ "] HTTP ".toList ++ method ++ " ".toList ++ path ++ " - ".toList ++
    FormatInt status ++ " ".toList ++ fmt5d ms ++ "ms (".toList ++ addr ++ ") ".toList ++ ua

/-- Source `LogMiddleware` (httpex.go:62-71). -/
def LogMiddleware {W : Type} [Httpex.ResponseWriter W] (next : Handler (statusRecorder W))
    (lg : Logger) : Handler W :=
  fun w r s =>
    let start := s.clock
    let wr : statusRecorder W := { ResponseWriter := w, Status := 200 }
    let (reqID, s) := nextReqID s
    let r := { r with ctx := newReqIDContext r.ctx reqID }
    match next wr r s with
    | none => none
    | some (wr, s) =>
      some (wr.ResponseWriter,
        Logger.Printf lg
          (logFormat reqID r.Method r.Path wr.Status (Milliseconds (Since start s.clock))
            (RequestIPAddr r) r.UserAgent) s)

/-! ## io/fs: filesystem views -/

/-- An error of a filesystem operation: a `*fs.PathError` (operation, path,
cause) or any other error with its text. -/
inductive FSError where
  | pathError (Op Path Err : Str)
  | other (msg : Str)
deriving DecidableEq, Repr

/-- Go `err.Error()`; for a `*fs.PathError` it is `Op + " " + Path + ": " + Err`. -/
def FSError.Error : FSError → Str
  | .pathError op path err => op ++ " ".toList ++ path ++ ": ".toList ++ err
  | .other msg => msg

/-- What opening a name yields: a regular file with its bytes, or a directory
with the names in it. -/
inductive Entry where
  | file (data : Str)
  | dir (names : List Str)
deriving DecidableEq, Repr

/-- An `fs.FS`: `Open`, and `ReadFile` as `fs.ReadFile(fsys, name)` computes it. -/
structure FS where
  Open : Str → Except FSError Entry
  ReadFile : Str → Except FSError Str

/-- Text of `fs.ErrInvalid`. -/
def errInvalid : Str := "invalid argument".toList

/-- Text of `fs.ErrNotExist`. -/
def errNotExist : Str := "file does not exist".toList

/-- Go `fs.ValidPath(name)`: the root ".", or slash-separated elements none of
which is empty, "." or ".." (a `Str` is always valid UTF-8). -/
def ValidPath (name : Str) : Bool :=
  if name = ".".toList then true
  else (name.splitOn '/').all
    (fun elem => decide (elem ≠ [] ∧ elem ≠ ".".toList ∧ elem ≠ "..".toList))

/-- Go `path.Join(dir, name)` on the arguments `subFS` passes, two valid paths
with `dir` other than ".": joining needs no cleaning there. -/
def pathJoin (dir name : Str) : Str :=
  if name = ".".toList then dir else dir ++ "/".toList ++ name

/-- Go `(*subFS).shorten` and `fixErr`: a path error about a name below `dir`
is reported with the name relative to `dir`. -/
def fixErr (dir : Str) : FSError → FSError
  | .pathError op path err =>
    if path = dir then .pathError op ".".toList err
    else if decide (path.length ≥ dir.length + 2) && (path.drop dir.length).head? == some '/'
        && path.take dir.length == dir then
      .pathError op (path.drop (dir.length + 1)) err
    else .pathError op path err
  | e => e

/-- Go `(*subFS).fullName(op, name)`. -/
def subFS.fullName (dir op name : Str) : Except FSError Str :=
  if !ValidPath name then .error (.pathError op name errInvalid)
  else .ok (pathJoin dir name)

/-- Go `&subFS{fsys, dir}`: `Open(name)` is `fsys.Open(path.Join(dir, name))`,
likewise `ReadFile`. -/
def subFS (fsys : FS) (dir : Str) : FS where
  Open name :=
    match subFS.fullName dir "open".toList name with
    | .error e => .error e
    | .ok full =>
      match fsys.Open full with
      | .error e => .error (fixErr dir e)
      | .ok f => .ok f
  ReadFile name :=
    match subFS.fullName dir "read".toList name with
    | .error e => .error e
    | .ok full =>
      match fsys.ReadFile full with
      | .error e => .error (fixErr dir e)
      | .ok data => .ok data

/-- An `fs.FS` value as the constructors of the package receive it: the view
it gives, and the `Sub` method of its own when its type has one (`fs.SubFS`). -/
structure FileSystem where
  view : FS
  Sub : Option (Str → Except FSError FS)

/-- Go `fs.Sub(fsys, dir)`: an invalid name is an error, "." is the
filesystem itself, otherwise the filesystem's own `Sub` method decides when it
has one, and without one the result is `&subFS{fsys, dir}`, built without
looking at the filesystem. -/
def fs.Sub (fsys : FileSystem) (dir : Str) : Except FSError FS :=
  if !ValidPath dir then .error (.pathError "sub".toList dir errInvalid)
  else if dir = ".".toList then .ok fsys.view
  else
    match fsys.Sub with
    | some sub => sub dir
    | none => .ok (subFS fsys.view dir)

/-- Go `fs.ReadFile(fsys, name)`. -/
def fs.ReadFile (fsys : FS) (name : Str) : Except FSError Str := fsys.ReadFile name

/-- The filesystem with nothing in it: every name fails with "not exist". -/
def emptyFS : FS where
  Open name := .error (.pathError "open".toList name errNotExist)
  ReadFile name := .error (.pathError "open".toList name errNotExist)

/-- A filesystem given by a table of regular files; directories are the
proper prefixes of their names. -/
def tableFS (files : List (Str × Str)) : FS where
  Open name :=
    match files.find? (fun f => f.1 == name) with
    | some f => .ok (.file f.2)
    | none =>
      let below := files.filter (fun f => HasPrefix f.1 (name ++ "/".toList))
      if below.isEmpty then .error (.pathError "open".toList name errNotExist)
      else .ok (.dir (below.map (fun f => f.1.drop (name.length + 1))))
  ReadFile name :=
    match files.find? (fun f => f.1 == name) with
    | some f => .ok f.2
    | none => .error (.pathError "open".toList name errNotExist)

/-! ## net/http: file systems, prefix stripping, the request multiplexer -/

/-- An `http.FileSystem`, given by its `Open` on slash-rooted names. -/
abbrev httpFileSystem := Str → Except FSError Entry

/-- Go `http.FS(fsys)`: `Open(name)` opens "." for "/" and otherwise the name
without its leading slash (the rewriting of errors other than "not exist" is
left out). -/
def http.FS (fsys : FS) : httpFileSystem :=
  fun name =>
    fsys.Open (if name = "/".toList then ".".toList else TrimPrefix name "/".toList)

/-- Go `http.StripPrefix(p, h)`, for requests whose `URL.RawPath` is empty. -/
def http.StripPrefix {W : Type} [ResponseWriter W] (pfx : Str) (h : Handler W) : Handler W :=
  if pfx = [] then h
  else fun w r s =>
    let p := TrimPrefix r.Path pfx
    if p.length < r.Path.length then h w { r with Path := p } s
    else some (http.NotFound w r, s)

/-- The elements of a rooted path after `path.Clean`: empty and "." elements
are dropped, ".." drops the element before it (nothing at the root). -/
def cleanElems : List Str → List Str → List Str
  | [], out => out.reverse
  | e :: es, out =>
    if e = [] ∨ e = ".".toList then cleanElems es out
    else if e = "..".toList then cleanElems es out.tail
    else cleanElems es (e :: out)

/-- Go `path.Clean(p)` for a rooted path `p`. -/
def path.Clean (p : Str) : Str :=
  '/' :: ("/".toList).intercalate (cleanElems (p.splitOn '/') [])

/-- Go `cleanPath` of net/http: the canonical form of a request path, keeping
a trailing slash. -/
def cleanPath (p : Str) : Str :=
  if p = [] then "/".toList
  else
    let p := if p.head? ≠ some '/' then '/' :: p else p
    let np := path.Clean p
    if p.getLast? = some '/' ∧ np ≠ "/".toList then np ++ "/".toList else np

/-- A registration of the multiplexer. -/
structure muxEntry (W : Type) where
  h : Handler W
  pattern : Str

/-- Go `http.ServeMux` holding plain patterns: the registrations, in order. -/
structure ServeMux (W : Type) where
  entries : List (muxEntry W)

/-- Go `http.NewServeMux()`. -/
def http.NewServeMux {W : Type} : ServeMux W := { entries := [] }

/-- A plain pattern: a rooted path without a blank, tab, brace or percent sign
and without an empty element between two slashes.  Every version of net/http
registers such a pattern as the literal path it spells; other patterns are
method, host, wildcard or escaped patterns in some versions, or do not parse. -/
def plainPattern (p : Str) : Bool :=
  (p.head? == some '/') &&
  p.all (fun c => !(c == ' ' || c == '\t' || c == '{' || c == '}' || c == '%')) &&
  ((p.splitOn '/').tail.dropLast).all (fun seg => !seg.isEmpty)

/-- Go `mux.Handle(pattern, handler)` for a plain pattern.  The result is
`none` when the call panics (an empty or already registered pattern) and when
the pattern is not plain, where what the call does depends on the version of
net/http and is not modelled. -/
def ServeMux.Handle {W : Type} (mux : ServeMux W) (pattern : Str) (h : Handler W) :
    Option (ServeMux W) :=
  if pattern = [] ∨ mux.entries.any (fun e => e.pattern == pattern) = true ∨
      plainPattern pattern = false then none
  else some { entries := mux.entries ++ [{ h := h, pattern := pattern }] }

/-- The registration with exactly this pattern. -/
def ServeMux.lookup {W : Type} (mux : ServeMux W) (path : Str) : Option (muxEntry W) :=
  mux.entries.find? (fun e => e.pattern == path)

/-- The longest registered pattern that ends in a slash and is a prefix of the
path. -/
def ServeMux.longest {W : Type} (path : Str) :
    List (muxEntry W) → Option (muxEntry W) → Option (muxEntry W)
  | [], best => best
  | e :: es, best =>
    if e.pattern.getLast? = some '/' ∧ HasPrefix path e.pattern = true ∧
        best.all (fun b => decide (b.pattern.length < e.pattern.length)) = true then
      ServeMux.longest path es (some e)
    else ServeMux.longest path es best

/-- The registration the multiplexer matches a path with: the pattern equal
to the path first, then the longest pattern ending in a slash that is a prefix
of the path. -/
def ServeMux.matchPath {W : Type} (mux : ServeMux W) (path : Str) : Option (muxEntry W) :=
  match mux.lookup path with
  | some e => some e
  | none => ServeMux.longest path mux.entries none

/-- The multiplexer's test for the subtree redirect: the path is not
registered but the path followed by a slash is. -/
def ServeMux.shouldRedirect {W : Type} (mux : ServeMux W) (path : Str) : Bool :=
  if (mux.lookup path).isSome then false
  else if path.length = 0 then false
  else if (mux.lookup (path ++ "/".toList)).isSome then path.getLast? != some '/'
  else false

/-- What the multiplexer decides for a request. -/
inductive Route (W : Type) where
  | serve (h : Handler W) (pattern : Str)
  | redirect (url : Str)
  | notFound

/-- The pattern of the registration a request is dispatched to, if any. -/
def Route.pattern? {W : Type} : Route W → Option Str
  | .serve _ pattern => some pattern
  | _ => none

/-- The target of the redirect, if the request is redirected. -/
def Route.redirect? {W : Type} : Route W → Option Str
  | .redirect url => some url
  | _ => none

/-- The route of a path: the matching registration, or not found. -/
def ServeMux.handler {W : Type} (mux : ServeMux W) (path : Str) : Route W :=
  match mux.matchPath path with
  | some e => .serve e.h e.pattern
  | none => .notFound

/-- Go `(*ServeMux).Handler(r)` over plain patterns, for a request with an
empty `URL.RawPath`: a request for a registered subtree without its trailing
slash is redirected to the subtree, a request whose path is not in canonical
form is redirected to the canonical path (not for CONNECT), every other
request goes to the matching registration.  The status code of the redirect
differs between versions of net/http and is not part of the route. -/
def ServeMux.Handler {W : Type} (mux : ServeMux W) (r : Request) : Route W :=
  if r.Method = "CONNECT".toList then
    if mux.shouldRedirect r.Path then .redirect (r.Path ++ "/".toList)
    else mux.handler r.Path
  else
    let path := cleanPath r.Path
    if mux.shouldRedirect path then .redirect (path ++ "/".toList)
    else if path ≠ r.Path then .redirect path
    else mux.handler r.Path

/-- A file server used in examples in the place of `http.FileServer`: a
regular file is written out, a directory is answered with the list of its
names, a name that cannot be opened with 404. -/
def listingFileServer {W : Type} [ResponseWriter W] (root : httpFileSystem) : Handler W :=
  fun w r s =>
    let upath := if HasPrefix r.Path "/".toList then r.Path else '/' :: r.Path
    match root (path.Clean upath) with
    | .ok (.file data) => some (ResponseWriter.Write w data, s)
    | .ok (.dir names) => some (ResponseWriter.Write w (("\n".toList).intercalate names), s)
    | .error _ => some (http.NotFound w r, s)

/-! ## handlers.go -/

/-- Source `FileServer` (handlers.go:30-35); `fileServer` stands for
`http.FileServer`. -/
def FileServer {W : Type} [ResponseWriter W] (fileServer : httpFileSystem → Handler W)
    (fsys : FS) (urlpath : Str) : Handler W :=
  let urlpath := if urlpath = [] then "/".toList else urlpath
  Neuter urlpath (http.StripPrefix urlpath (fileServer (http.FS fsys)))

/-- Source `FileServerSubdir` (handlers.go:17-26); the error result is the
message of the panic raised by `log.Panicf`. -/
def FileServerSubdir {W : Type} [ResponseWriter W] (fileServer : httpFileSystem → Handler W)
    (fsys : FileSystem) (subdir urlpath : Str) : Except Str (Handler W) :=
  if subdir = [] then .ok (FileServer fileServer fsys.view urlpath)
  else
    match fs.Sub fsys subdir with
    | .error err => .error ("internal error: fs.Sub: ".toList ++ err.Error)
    | .ok subfs => .ok (FileServer fileServer subfs urlpath)

/-! ## vue_spa.go -/

/-- Source `vueIndexHandler` (vue_spa.go:70-88). -/
def vueIndexHandler {W : Type} [ResponseWriter W] (fsys : FS) : Handler W :=
  fun w r s =>
    if r.Path = "/favicon.ico".toList then
      match fs.ReadFile fsys "favicon.ico".toList with
      | .error err => some (http.Error w err.Error 500, s)
      | .ok content => some (ResponseWriter.Write w content, s)
    else
      match fs.ReadFile fsys "index.html".toList with
      | .error err => some (http.Error w err.Error 500, s)
      | .ok content => some (ResponseWriter.Write w content, s)

/-- The assets name as `NewVueSPA` normalises it (vue_spa.go:43-45). -/
def normAssets (assetsDirName : Str) : Str :=
  if !HasSuffix assetsDirName "/".toList then assetsDirName ++ "/".toList else assetsDirName

/-- Source `NewVueSPA` (vue_spa.go:35-52); `fileServer` stands for
`http.FileServer`, `some (.error err)` for the result `(nil, err)`, `some
(.ok mux)` for `(mux, nil)`, and `none` for a registration outside the model
of `ServeMux.Handle`. -/
def NewVueSPA {W : Type} [ResponseWriter W] (fileServer : httpFileSystem → Handler W)
    (fsys : FileSystem) (rootPath assetsDirName : Str) :
    Option (Except FSError (ServeMux W)) :=
  let mux : ServeMux W := http.NewServeMux
  match fs.Sub fsys rootPath with
  | .error err => some (.error err)
  | .ok rootfs =>
    let assetsDirName := normAssets assetsDirName
    match mux.Handle ("/".toList ++ assetsDirName)
        (Neuter "/".toList (fileServer (http.FS rootfs))) with
    | none => none
    | some mux =>
      match mux.Handle "/".toList (vueIndexHandler rootfs) with
      | none => none
      | some mux => some (.ok mux)

/-- A handler that leaves one record on the standard logger and writes nothing:
used to count invocations. -/
def probe {W : Type} : Handler W :=
  fun w r s => some (w, Logger.Printf stdLogger r.Path s)

/-- The status argument of a call, when the call is `WriteHeader`. -/
def WCall.status? : WCall → Option Int
  | .WriteHeader status => some status
  | _ => none

/-- The status the specification attributes to the recorder: the argument of
the first `WriteHeader` made before any body write, the default 200 when the
body is written first or nothing is written. -/
def firstStatus : List WCall → Int
  | [] => 200
  | .WriteHeader status :: _ => status
  | .Write _ :: _ => 200
  | .HeaderSet _ _ :: cs => firstStatus cs

/-- The argument of the last `WriteHeader` among the calls, `dflt` when there
is none. -/
def lastStatus (dflt : Int) (cs : List WCall) : Int :=
  ((cs.filterMap WCall.status?).getLast?).getD dflt

/-- The relation "read as integers, the first is smaller". -/
def idLt (a b : Str) : Prop :=
  ∃ x y : Int, ParseInt a = some x ∧ ParseInt b = some y ∧ x < y

/-! ## Facts about strings -/

theorem HasSuffix_iff (s suffix : Str) : HasSuffix s suffix = true ↔ suffix <:+ s := by
  unfold HasSuffix
  constructor
  · intro h
    simp only [Bool.and_eq_true, decide_eq_true_eq, beq_iff_eq] at h
    exact h.2 ▸ List.drop_suffix _ _
  · rintro ⟨t, rfl⟩
    simp

theorem HasPrefix_iff (s p : Str) : HasPrefix s p = true ↔ p <+: s := by
  unfold HasPrefix
  constructor
  · intro h
    simp only [Bool.and_eq_true, decide_eq_true_eq, beq_iff_eq] at h
    exact h.2 ▸ List.take_prefix _ _
  · rintro ⟨t, rfl⟩
    simp

/-! ## C1 -/

/-- C1: the handler `Neuter m next` answers 404 Not Found, without running
`next`, exactly when the request path ends with `m` and is longer than `m`; in
every other case its result is that of one run of `next` on the same writer,
request and world.  On the server's fresh writer the 404 answer has status 404
and body "404 page not found\n"; the two examples of the specification are
evaluated with a counting handler. -/
theorem C1_neuter_policy :
    (∀ (W : Type) [ResponseWriter W] (m : Str) (next : Handler W) (w : W) (r : Request)
        (s : World),
        Neuter m next w r s =
          if m <:+ r.Path ∧ m.length < r.Path.length then
            some (http.NotFound w r,
              { s with log := s.log ++ [(stdLogger, "neutralised: ".toList ++ r.Path)] })
          else next w r s) ∧
    (∀ (r : Request), (http.NotFound Response.fresh r).status = 404 ∧
        (http.NotFound Response.fresh r).body = "404 page not found\n".toList) ∧
    (∀ (m : Str) (next : Handler Response) (r : Request) (s : World),
        r.Path = m → Neuter m next Response.fresh r s = next Response.fresh r s) ∧
    (∀ (meth addr ua : Str) (c : Context) (s : World),
        (Neuter "/assets/".toList probe Response.fresh
            ⟨meth, "/assets/images/assets/".toList, addr, ua, c⟩ s).map
          (fun o => (o.1.status, o.2.log)) =
          some (404, s.log ++ [(stdLogger, "neutralised: /assets/images/assets/".toList)])) ∧
    (∀ (meth addr ua : Str) (c : Context) (s : World),
        (Neuter "/static".toList probe Response.fresh
            ⟨meth, "/static".toList, addr, ua, c⟩ s) =
          some (Response.fresh, { s with log := s.log ++ [(stdLogger, "/static".toList)] })) := by
  refine ⟨?_, ?_, ?_, ?_, ?_⟩
  · intro W _ m next w r s
    have h : (HasSuffix r.Path m && decide (r.Path.length > m.length)) = true ↔
        (m <:+ r.Path ∧ m.length < r.Path.length) := by
      simp [HasSuffix_iff]
    unfold Neuter
    by_cases hc : m <:+ r.Path ∧ m.length < r.Path.length
    · simp only [h.mpr hc, if_pos hc, if_true, Logger.Printf]
    · have hb : ¬ (HasSuffix r.Path m && decide (r.Path.length > m.length)) = true :=
        fun hb => hc (h.mp hb)
      simp only [hb, if_neg hc, if_false]
      simp
  · intro r
    constructor <;> rfl
  · intro m next r s hr
    unfold Neuter
    simp [hr]
  · intro meth addr ua c s
    rfl
  · intro meth addr ua c s
    rfl

/-- Witness for C1 at the specification's example of an exact mount path. -/
theorem C1_neuter_policy_witness :
    Neuter "/static".toList probe Response.fresh
        ⟨"GET".toList, "/static".toList, [], [], Context.background⟩ ⟨0, 0, []⟩ =
      probe Response.fresh
        ⟨"GET".toList, "/static".toList, [], [], Context.background⟩ ⟨0, 0, []⟩ :=
  C1_neuter_policy.2.2.1 "/static".toList probe
    ⟨"GET".toList, "/static".toList, [], [], Context.background⟩ ⟨0, 0, []⟩ rfl


/-! ## Facts about the decimal conversions -/

theorem digitVal_digitChar (d : Nat) (h : d < 10) : digitVal (digitChar d) = some d := by
  interval_cases d <;> rfl

theorem digitChar_ne_sign (d : Nat) (h : d < 10) : digitChar d ≠ '-' ∧ digitChar d ≠ '+' := by
  interval_cases d <;> decide

theorem formatBits_eq (n : Nat) : ∀ (fuel : Nat) (acc : Str), n < fuel →
    formatBits fuel n acc = FormatUint n ++ acc := by
  induction n using Nat.strong_induction_on with
  | _ n ih =>
    intro fuel acc hf
    obtain ⟨fuel, rfl⟩ : ∃ k, fuel = k + 1 := ⟨fuel - 1, by omega⟩
    unfold FormatUint
    by_cases h10 : n < 10
    · simp [formatBits, h10]
    · have hlt : n / 10 < n := by omega
      simp only [formatBits, h10, if_false]
      rw [ih (n / 10) hlt fuel _ (by omega), ih (n / 10) hlt n _ hlt]
      simp

theorem FormatUint_step (n : Nat) (h : 10 ≤ n) :
    FormatUint n = FormatUint (n / 10) ++ [digitChar (n % 10)] := by
  have h10 : ¬ n < 10 := by omega
  conv_lhs => unfold FormatUint
  simp only [formatBits, h10, if_false]
  exact formatBits_eq (n / 10) n _ (by omega)

theorem FormatUint_small (n : Nat) (h : n < 10) : FormatUint n = [digitChar n] := by
  simp [FormatUint, formatBits, h]

theorem parseDigits_append (xs ys : Str) : ∀ acc : Nat,
    parseDigits (xs ++ ys) acc = (parseDigits xs acc).bind (parseDigits ys) := by
  induction xs with
  | nil => intro acc; rfl
  | cons c cs ih =>
    intro acc
    simp only [List.cons_append, parseDigits]
    cases digitVal c with
    | none => rfl
    | some d => exact ih _

theorem parseDigits_FormatUint (n : Nat) : parseDigits (FormatUint n) 0 = some n := by
  induction n using Nat.strong_induction_on with
  | _ n ih =>
    by_cases h10 : n < 10
    · rw [FormatUint_small n h10]
      simp [parseDigits, digitVal_digitChar n h10]
    · rw [FormatUint_step n (by omega), parseDigits_append, ih (n / 10) (by omega)]
      simp only [Option.some_bind, parseDigits, digitVal_digitChar (n % 10) (by omega)]
      congr 1
      omega

theorem FormatUint_head (n : Nat) : ∃ d cs, d < 10 ∧ FormatUint n = digitChar d :: cs := by
  induction n using Nat.strong_induction_on with
  | _ n ih =>
    by_cases h10 : n < 10
    · exact ⟨n, [], h10, FormatUint_small n h10⟩
    · obtain ⟨d, cs, hd, hcs⟩ := ih (n / 10) (by omega)
      exact ⟨d, cs ++ [digitChar (n % 10)], hd, by rw [FormatUint_step n (by omega), hcs]; rfl⟩

/-- Reading back a formatted `int64` gives the number. -/
theorem ParseInt_FormatInt (x : Int) (hlo : -(2 ^ 63) ≤ x) (hhi : x < 2 ^ 63) :
    ParseInt (FormatInt x) = some x := by
  obtain ⟨d, cs, hd, hcs⟩ := FormatUint_head x.natAbs
  have hp := parseDigits_FormatUint x.natAbs
  by_cases hneg : x < 0
  · have hne : FormatUint x.natAbs ≠ [] := by rw [hcs]; simp
    have hle : x.natAbs ≤ 2 ^ 63 := by omega
    simp only [FormatInt, hneg, if_true, ParseInt, hne, if_false, hp, Option.some_bind, hle]
    congr 1
    omega
  · have hlt : x.natAbs < 2 ^ 63 := by omega
    have h1 := (digitChar_ne_sign d hd).1
    have h2 := (digitChar_ne_sign d hd).2
    simp only [FormatInt, hneg, if_false]
    rw [hcs]
    simp only [ParseInt, h1, h2, if_false]
    rw [← hcs, hp]
    simp only [Option.some_bind, hlt, if_true]
    congr 1
    omega

/-! ## The status recorder -/

theorem runCalls_cons {W : Type} [ResponseWriter W] (w : W) (c : WCall) (cs : List WCall) :
    runCalls w (c :: cs) = runCalls (WCall.run w c) cs := rfl

theorem recorder_status {W : Type} [ResponseWriter W] (cs : List WCall) :
    ∀ sr : statusRecorder W, (runCalls sr cs).Status = lastStatus sr.Status cs := by
  induction cs with
  | nil => intro sr; rfl
  | cons c cs ih =>
    intro sr
    rw [runCalls_cons, ih]
    cases c with
    | WriteHeader status =>
      simp [lastStatus, WCall.status?, WCall.run, ResponseWriter.WriteHeader,
        statusRecorder.WriteHeader, List.getLast?_cons]
    | Write b => simp [lastStatus, WCall.status?, WCall.run, ResponseWriter.Write]
    | HeaderSet k v => simp [lastStatus, WCall.status?, WCall.run, ResponseWriter.HeaderSet]

theorem recorder_forwards {W : Type} [ResponseWriter W] (cs : List WCall) :
    ∀ sr : statusRecorder W, (runCalls sr cs).ResponseWriter = runCalls sr.ResponseWriter cs := by
  induction cs with
  | nil => intro sr; rfl
  | cons c cs ih =>
    intro sr
    rw [runCalls_cons, runCalls_cons, ih]
    cases c <;> rfl

/-! ## C7 -/

theorem Value_of_neverAttached (ctx : Context) (h : ctx.neverAttached = true) :
    ctx.Value Key.reqIDkey = none := by
  induction ctx with
  | background => rfl
  | withValue parent k v ih =>
    simp only [Context.neverAttached, Bool.and_eq_true, bne_iff_ne, ne_eq] at h
    simp only [Context.Value, h.1, if_false]
    exact ih h.2
  | derived parent ih => exact ih h

/-- C7: the accessor returns the ID that `newReqIDContext` attached last,
whatever the parent context carried, and reports "not present" on every
context to which no ID was attached. -/
theorem C7_context_request_id :
    (∀ (ctx : Context) (id : Str), ContextRequestID (newReqIDContext ctx id) = (id, true)) ∧
    (∀ (ctx : Context) (old id : Str),
        ContextRequestID (newReqIDContext (newReqIDContext ctx old) id) = (id, true)) ∧
    (∀ ctx : Context, ctx.neverAttached = true → ContextRequestID ctx = ([], false)) := by
  refine ⟨?_, ?_, ?_⟩
  · intro ctx id
    simp [ContextRequestID, newReqIDContext, Context.Value]
  · intro ctx old id
    simp [ContextRequestID, newReqIDContext, Context.Value]
  · intro ctx h
    simp [ContextRequestID, Value_of_neverAttached ctx h]

/-- Witness for C7: a context carrying only a foreign value has no ID. -/
theorem C7_context_request_id_witness :
    ContextRequestID (Context.derived (Context.withValue Context.background (Key.other 7)
        (Value.RequestID "9".toList))) = ([], false) :=
  C7_context_request_id.2.2 _ (by decide)

/-! ## C4 -/

/-- C4: behind the recorder that `LogMiddleware` creates (initial status 200), a
handler that never calls `WriteHeader` leaves the recorded status at 200, and a
handler that calls `WriteHeader(code)` and then writes the body leaves it at
`code`; the wrapped writer receives exactly the handler's calls, and the record
`LogMiddleware` prints carries that status. -/
theorem C4_recorded_status :
    (∀ (W : Type) [ResponseWriter W] (w : W) (cs : List WCall),
        (∀ c ∈ cs, WCall.status? c = none) →
        (runCalls (⟨w, 200⟩ : statusRecorder W) cs).Status = 200 ∧
        (runCalls (⟨w, 200⟩ : statusRecorder W) cs).ResponseWriter = runCalls w cs) ∧
    (∀ (W : Type) [ResponseWriter W] (w : W) (code : Int) (b : Str),
        runCalls (⟨w, 200⟩ : statusRecorder W) [.WriteHeader code, .Write b] =
          ⟨ResponseWriter.Write (ResponseWriter.WriteHeader w code) b, code⟩) ∧
    (∀ (W : Type) [ResponseWriter W] (lg : Logger) (w : W) (r : Request) (s : World)
        (code : Int) (b : Str),
        LogMiddleware (callsHandler [.WriteHeader code, .Write b]) lg w r s =
          some (ResponseWriter.Write (ResponseWriter.WriteHeader w code) b,
            Logger.Printf lg
              (logFormat (nextReqID s).1 r.Method r.Path code (Milliseconds (Since s.clock s.clock))
                r.RemoteAddr r.UserAgent) (nextReqID s).2)) ∧
    (runCalls (⟨Response.fresh, 200⟩ : statusRecorder Response)
        [.WriteHeader 404, .Write "gone".toList] =
      ⟨{ header := [], wroteHeader := true, status := 404, body := "gone".toList }, 404⟩) := by
  refine ⟨?_, ?_, ?_, ?_⟩
  · intro W _ w cs h
    refine ⟨?_, recorder_forwards cs _⟩
    rw [recorder_status]
    have : cs.filterMap WCall.status? = [] := by
      rw [List.filterMap_eq_nil_iff]
      exact h
    simp [lastStatus, this]
  · intro W _ w code b
    rfl
  · intro W _ lg w r s code b
    rfl
  · rfl

/-- Witness for C4: a handler that only writes a body. -/
theorem C4_recorded_status_witness :
    (runCalls (⟨Response.fresh, 200⟩ : statusRecorder Response) [.Write "ok".toList]).Status = 200 ∧
    (runCalls (⟨Response.fresh, 200⟩ : statusRecorder Response) [.Write "ok".toList]).ResponseWriter =
      runCalls Response.fresh [.Write "ok".toList] :=
  C4_recorded_status.1 Response Response.fresh [.Write "ok".toList] (by decide)

/-! ## C9 -/

/-- C9, the code at the failing inputs: after `WriteHeader(404)` followed by
`WriteHeader(500)` the recorder holds 500, not the first status 404, while the
wrapped server writer, and so the response sent, keeps 404; after a body write
followed by `WriteHeader(500)` the recorder holds 500, not the default 200,
while the response sent has status 200.  Behind `LogMiddleware` the record
printed then carries 500 for a response whose status is 404. -/
theorem C9_recorded_status_not_first :
    (runCalls (⟨Response.fresh, 200⟩ : statusRecorder Response)
        [.WriteHeader 404, .WriteHeader 500]).Status = 500 ∧
    firstStatus [.WriteHeader 404, .WriteHeader 500] = 404 ∧
    (runCalls (⟨Response.fresh, 200⟩ : statusRecorder Response)
        [.WriteHeader 404, .WriteHeader 500]).ResponseWriter.status = 404 ∧
    (runCalls (⟨Response.fresh, 200⟩ : statusRecorder Response)
        [.Write "x".toList, .WriteHeader 500]).Status = 500 ∧
    firstStatus [.Write "x".toList, .WriteHeader 500] = 200 ∧
    (runCalls (⟨Response.fresh, 200⟩ : statusRecorder Response)
        [.Write "x".toList, .WriteHeader 500]).ResponseWriter.status = 200 ∧
    LogMiddleware (callsHandler [.WriteHeader 404, .WriteHeader 500]) 1 Response.fresh
        ⟨"GET".toList, "/x".toList, "10.0.0.1:5".toList, "curl".toList, Context.background⟩
        ⟨0, 0, []⟩ =
      some ({ header := [], wroteHeader := true, status := 404, body := [] },
        { counter := 1, clock := 0,
          log := [(1, "[1] HTTP GET /x - 500     0ms (10.0.0.1:5) curl".toList)] }) ∧
    ¬ (∀ cs : List WCall,
        (runCalls (⟨Response.fresh, 200⟩ : statusRecorder Response) cs).Status = firstStatus cs) := by
  refine ⟨by decide, by decide, by decide, by decide, by decide, by decide, rfl, ?_⟩
  intro h
  exact absurd (h [.WriteHeader 404, .WriteHeader 500]) (by decide)

/-! ## The correlation IDs -/

theorem wrapInt64_add (x y : Int) : wrapInt64 (wrapInt64 x + y) = wrapInt64 (x + y) := by
  unfold wrapInt64
  omega

theorem wrapInt64_of_range (x : Int) (hlo : -(2 ^ 63) ≤ x) (hhi : x < 2 ^ 63) :
    wrapInt64 x = x := by
  unfold wrapInt64
  omega

theorem genIDs_ids (n : Nat) : ∀ s : World,
    (genIDs n s).1 =
      (List.range n).map (fun i : Nat => FormatInt (wrapInt64 (s.counter + ((i : Int) + 1)))) := by
  induction n with
  | zero => intro s; rfl
  | succ n ih =>
    intro s
    rw [List.range_succ_eq_map]
    simp only [genIDs, nextReqID, counterAdd, List.map_cons, List.map_map]
    rw [ih]
    simp only [Nat.cast_zero, zero_add, List.cons.injEq, true_and]
    apply List.map_congr_left
    intro i _
    simp only [Function.comp, Nat.cast_succ]
    rw [wrapInt64_add]
    congr 2
    ring

theorem genIDs_counter (n : Nat) : ∀ s : World,
    (genIDs (n + 1) s).2 = { s with counter := wrapInt64 (s.counter + ((n : Int) + 1)) } := by
  induction n with
  | zero => intro s; simp [genIDs, nextReqID, counterAdd]
  | succ n ih =>
    intro s
    have h : (genIDs (n + 1 + 1) s).2 = (genIDs (n + 1) (nextReqID s).2).2 := rfl
    rw [h, ih]
    simp only [nextReqID, counterAdd, Nat.cast_succ]
    rw [wrapInt64_add]
    congr 2
    ring

theorem idLt_ne {a b : Str} (h : idLt a b) : a ≠ b := by
  obtain ⟨x, y, hx, hy, hlt⟩ := h
  intro hab
  rw [hab, hy] at hx
  injection hx with hxy
  omega

theorem wrapInt64_range (x : Int) : -(2 ^ 63) ≤ wrapInt64 x ∧ wrapInt64 x < 2 ^ 63 := by
  unfold wrapInt64
  omega

theorem FormatInt_wrap_inj (x y : Int) (h : FormatInt (wrapInt64 x) = FormatInt (wrapInt64 y)) :
    wrapInt64 x = wrapInt64 y := by
  have hx := ParseInt_FormatInt _ (wrapInt64_range x).1 (wrapInt64_range x).2
  have hy := ParseInt_FormatInt _ (wrapInt64_range y).1 (wrapInt64_range y).2
  rw [h, hy] at hx
  injection hx with hx
  exact hx.symm

theorem genIDs_counter_zero (k : Nat) (t : Int) (l : List (Logger × Str)) :
    (genIDs k ⟨0, t, l⟩).2.counter = wrapInt64 (k : Int) := by
  cases k with
  | zero => rfl
  | succ n =>
    rw [genIDs_counter]
    simp only [zero_add, Nat.cast_succ]

/-! ## C5 -/

/-- C5: for generations taken one after the other from counter value 0, every
ID is the decimal string of the counter's value after its increment, whatever
their number; the IDs of up to 2^64 generations are pairwise distinct; and for
every number N of generations the `int64` counter can count, N < 2^63, each
increment raises the counter by exactly one (it is never decremented or
reset), the k-th ID is the decimal string of k, none duplicated or skipped,
and the IDs read as integers are strictly increasing. -/
theorem C5_ids_increasing :
    (∀ (N : Nat) (t : Int) (l : List (Logger × Str)),
      (genIDs N ⟨0, t, l⟩).1 =
        (List.range N).map (fun k : Nat => FormatInt (genIDs (k + 1) ⟨0, t, l⟩).2.counter)) ∧
    (∀ (N : Nat) (t : Int) (l : List (Logger × Str)), N ≤ 2 ^ 64 →
      (genIDs N ⟨0, t, l⟩).1.Nodup) ∧
    (∀ (N : Nat) (t : Int) (l : List (Logger × Str)), N < 2 ^ 63 →
      (∀ k : Nat, k < N →
        (genIDs (k + 1) ⟨0, t, l⟩).2.counter = (genIDs k ⟨0, t, l⟩).2.counter + 1 ∧
        (genIDs (k + 1) ⟨0, t, l⟩).2.counter = (k : Int) + 1) ∧
      (genIDs N ⟨0, t, l⟩).1 = (List.range N).map (fun k : Nat => FormatInt ((k : Int) + 1)) ∧
      (genIDs N ⟨0, t, l⟩).1.Nodup ∧
      List.Pairwise idLt (genIDs N ⟨0, t, l⟩).1) := by
  refine ⟨?_, ?_, ?_⟩
  · intro N t l
    rw [genIDs_ids]
    apply List.map_congr_left
    intro k _
    rw [genIDs_counter_zero]
    simp only [zero_add, Nat.cast_succ]
  · intro N t l hN
    rw [genIDs_ids]
    refine List.Nodup.map_on ?_ (List.nodup_range N)
    intro x hx y hy hxy
    have hx : x < N := List.mem_range.mp hx
    have hy : y < N := List.mem_range.mp hy
    have h := FormatInt_wrap_inj _ _ hxy
    simp only [zero_add] at h
    unfold wrapInt64 at h
    omega
  · intro N t l hN
    have hids : (genIDs N ⟨0, t, l⟩).1 =
        (List.range N).map (fun k : Nat => FormatInt ((k : Int) + 1)) := by
      rw [genIDs_ids]
      apply List.map_congr_left
      intro k hk
      have hk : k < N := List.mem_range.mp hk
      simp only [zero_add]
      rw [wrapInt64_of_range _ (by omega) (by omega)]
    have hpair : List.Pairwise idLt (genIDs N ⟨0, t, l⟩).1 := by
      rw [hids, List.pairwise_map]
      refine List.Pairwise.imp_of_mem ?_ (List.pairwise_lt_range N)
      intro a b ha hb hab
      have ha : a < N := List.mem_range.mp ha
      have hb : b < N := List.mem_range.mp hb
      exact ⟨(a : Int) + 1, (b : Int) + 1, ParseInt_FormatInt _ (by omega) (by omega),
        ParseInt_FormatInt _ (by omega) (by omega), by omega⟩
    refine ⟨?_, hids, List.Pairwise.imp (fun h => idLt_ne h) hpair, hpair⟩
    intro k hk
    rw [genIDs_counter_zero, genIDs_counter_zero, Nat.cast_succ,
      wrapInt64_of_range _ (by omega) (by omega), wrapInt64_of_range _ (by omega) (by omega)]
    exact ⟨rfl, rfl⟩

/-- Witness for C5: three generations give "1", "2", "3". -/
theorem C5_ids_increasing_witness :
    (genIDs 3 ⟨0, 0, []⟩).1.Nodup ∧
    (genIDs 3 ⟨0, 0, []⟩).1 = (List.range 3).map (fun k : Nat => FormatInt ((k : Int) + 1)) ∧
    List.Pairwise idLt (genIDs 3 ⟨0, 0, []⟩).1 :=
  ⟨C5_ids_increasing.2.1 3 0 [] (by norm_num),
    (C5_ids_increasing.2.2 3 0 [] (by norm_num)).2.1,
    (C5_ids_increasing.2.2 3 0 [] (by norm_num)).2.2.2⟩

/-! ## C6 -/

/-- C6: when the downstream handler returns, `LogMiddleware` returns what one
run of it left (the wrapped writer and the world) with exactly one record
added after it on the given logger; the record is, in this order, the
correlation ID, the method, the path, the status held by the recorder when the
handler returned, the elapsed milliseconds, the client address and the user
agent; the ID is the decimal string of the incremented counter and is the one
found in the context of the request passed downstream.  A downstream handler
that does not return leaves no record. -/
theorem C6_log_record (W : Type) [ResponseWriter W] (next : Handler (statusRecorder W))
    (lg : Logger) (w : W) (r : Request) (s : World) :
    (∀ (wr : statusRecorder W) (s1 : World),
      next ⟨w, 200⟩ { r with ctx := newReqIDContext r.ctx (FormatInt (wrapInt64 (s.counter + 1))) }
          { s with counter := wrapInt64 (s.counter + 1) } = some (wr, s1) →
      LogMiddleware next lg w r s =
        some (wr.ResponseWriter,
          { s1 with log := s1.log ++
            [(lg, "[".toList ++ FormatInt (wrapInt64 (s.counter + 1)) ++ "] HTTP ".toList ++
                r.Method ++ " ".toList ++ r.Path ++ " - ".toList ++ FormatInt wr.Status ++
                " ".toList ++ fmt5d (Milliseconds (Since s.clock s1.clock)) ++ "ms (".toList ++
                r.RemoteAddr ++ ") ".toList ++ r.UserAgent)] })) ∧
    ContextRequestID
        ({ r with ctx := newReqIDContext r.ctx (FormatInt (wrapInt64 (s.counter + 1))) } : Request).ctx =
      (FormatInt (wrapInt64 (s.counter + 1)), true) ∧
    (next ⟨w, 200⟩ { r with ctx := newReqIDContext r.ctx (FormatInt (wrapInt64 (s.counter + 1))) }
          { s with counter := wrapInt64 (s.counter + 1) } = none →
      LogMiddleware next lg w r s = none) := by
  refine ⟨?_, ?_, ?_⟩
  · intro wr s1 h
    simp only [LogMiddleware, nextReqID, counterAdd, h]
    rfl
  · simp [ContextRequestID, newReqIDContext, Context.Value]
  · intro h
    simp only [LogMiddleware, nextReqID, counterAdd, h]

/-- Witness for C6: a downstream handler that sets 404, leaves one record of
its own and takes 2.5 ms; the middleware's record follows it. -/
theorem C6_log_record_witness :
    LogMiddleware
        (fun wr r s => some (ResponseWriter.WriteHeader wr 404,
          { Logger.Printf stdLogger r.Path s with clock := s.clock + 2500000 }))
        1 Response.fresh
        ⟨"GET".toList, "/x".toList, "10.0.0.1:5".toList, "curl".toList, Context.background⟩
        ⟨41, 1000, []⟩ =
      some ({ header := [], wroteHeader := true, status := 404, body := [] },
        { counter := 42, clock := 2501000,
          log := [(stdLogger, "/x".toList),
            (1, "[42] HTTP GET /x - 404     2ms (10.0.0.1:5) curl".toList)] }) :=
  (C6_log_record Response
      (fun wr r s => some (ResponseWriter.WriteHeader wr 404,
        { Logger.Printf stdLogger r.Path s with clock := s.clock + 2500000 }))
      1 Response.fresh
      ⟨"GET".toList, "/x".toList, "10.0.0.1:5".toList, "curl".toList, Context.background⟩
      ⟨41, 1000, []⟩).1 _ _ rfl

/-! ## C2 -/

/-- C2, refuted as stated: with `index.html` missing the answer to
"/some/route" is 500, but its body is the text of the read error followed by a
newline, not the text alone. -/
theorem C2_fallback_counterexample :
    fs.ReadFile emptyFS "index.html".toList =
      .error (.pathError "open".toList "index.html".toList errNotExist) ∧
    (vueIndexHandler emptyFS Response.fresh
        ⟨"GET".toList, "/some/route".toList, [], [], Context.background⟩ ⟨0, 0, []⟩).map
      (fun o => (o.1.status, o.1.body)) =
      some (500, "open index.html: file does not exist\n".toList) ∧
    (vueIndexHandler emptyFS Response.fresh
        ⟨"GET".toList, "/some/route".toList, [], [], Context.background⟩ ⟨0, 0, []⟩).map
      (fun o => o.1.body) ≠
      some (FSError.pathError "open".toList "index.html".toList errNotExist).Error := by
  refine ⟨rfl, rfl, ?_⟩
  decide

/-- C2, amended: the fallback handler reads `favicon.ico` when the path is
exactly "/favicon.ico" and `index.html` for every other path, and nothing
else; on a fresh writer a successful read gives status 200 with exactly the
file's bytes as body, a failed read gives status 500 with the text of the read
error followed by a newline as body.  On any writer the two answers are
`w.Write(content)` and `http.Error(w, err.Error(), 500)`. -/
theorem C2_fallback_handler (fsys : FS) (r : Request) (s : World) :
    (vueIndexHandler fsys Response.fresh r s =
      match fs.ReadFile fsys
          (if r.Path = "/favicon.ico".toList then "favicon.ico".toList
            else "index.html".toList) with
      | .ok content =>
        some ({ header := [], wroteHeader := true, status := 200, body := content }, s)
      | .error err =>
        some ({ header := [("X-Content-Type-Options".toList, "nosniff".toList),
                  ("Content-Type".toList, "text/plain; charset=utf-8".toList)],
                wroteHeader := true, status := 500, body := err.Error ++ ['\n'] }, s)) ∧
    (∀ (W : Type) [ResponseWriter W] (w : W),
      vueIndexHandler fsys w r s =
        match fs.ReadFile fsys
            (if r.Path = "/favicon.ico".toList then "favicon.ico".toList
              else "index.html".toList) with
        | .ok content => some (ResponseWriter.Write w content, s)
        | .error err => some (http.Error w err.Error 500, s)) := by
  constructor
  · by_cases h : r.Path = "/favicon.ico".toList
    · simp only [vueIndexHandler, h, if_true]
      cases fs.ReadFile fsys "favicon.ico".toList <;> rfl
    · simp only [vueIndexHandler, h, if_false]
      cases fs.ReadFile fsys "index.html".toList <;> rfl
  · intro W _ w
    by_cases h : r.Path = "/favicon.ico".toList
    · simp only [vueIndexHandler, h, if_true]
      cases fs.ReadFile fsys "favicon.ico".toList <;> rfl
    · simp only [vueIndexHandler, h, if_false]
      cases fs.ReadFile fsys "index.html".toList <;> rfl

/-! ## C8 -/

theorem fs_Sub_invalid (fsys : FileSystem) (dir : Str) (h : ValidPath dir = false) :
    fs.Sub fsys dir = .error (.pathError "sub".toList dir errInvalid) := by
  simp only [fs.Sub, h, Bool.not_false, if_true]

theorem fs_Sub_valid (view : FS) (dir : Str) (h : ValidPath dir = true) :
    fs.Sub ⟨view, none⟩ dir = .ok (if dir = ".".toList then view else subFS view dir) := by
  simp only [fs.Sub, h, Bool.not_true, Bool.false_eq_true, if_false]
  split <;> rfl

/-- C8, refuted as stated: in a filesystem that holds nothing and has no `Sub`
method of its own, the subdirectory "missing" does not exist, yet
`FileServerSubdir` returns a handler (no panic) and `NewVueSPA` returns a
router and no error; the failure shows only at the first request, which the
fallback handler answers 500. -/
theorem C8_missing_subdir_counterexample :
    emptyFS.Open "missing".toList =
      .error (.pathError "open".toList "missing".toList errNotExist) ∧
    (FileServerSubdir listingFileServer ⟨emptyFS, none⟩ "missing".toList "/".toList :
      Except Str (Handler Response)) =
      .ok (FileServer listingFileServer (subFS emptyFS "missing".toList) "/".toList) ∧
    (match (NewVueSPA listingFileServer ⟨emptyFS, none⟩ "missing".toList "assets".toList :
        Option (Except FSError (ServeMux Response))) with
      | some (.ok mux) =>
        (match mux.Handler ⟨"GET".toList, "/".toList, [], [], Context.background⟩ with
          | .serve h _ =>
            (h Response.fresh ⟨"GET".toList, "/".toList, [], [], Context.background⟩
              ⟨0, 0, []⟩).map (fun o => (o.1.status, o.1.body))
          | _ => none)
      | _ => none) =
      some (500, "open index.html: file does not exist\n".toList) := by
  refine ⟨rfl, rfl, ?_⟩
  rfl

/-- C8, amended: `FileServerSubdir` with a non-empty subdirectory name panics
at construction exactly when `fs.Sub` returns an error for the name, with that
error in the message, and otherwise it is `FileServer` on the sub-view
`fs.Sub` returned; `NewVueSPA` returns the error of `fs.Sub` and no router
when `fs.Sub` fails on the root path; with an empty subdirectory name
`FileServerSubdir` never fails and is `FileServer` on the same view and URL
prefix.  `fs.Sub` fails on every name that is not a valid path, and on a
filesystem without a `Sub` method of its own on no other name: whether the
directory exists is not looked at. -/
theorem C8_construction_failure (W : Type) [ResponseWriter W]
    (fileServer : httpFileSystem → Handler W) (fsys : FileSystem) :
    (∀ (subdir urlpath : Str) (err : FSError), subdir ≠ [] →
      fs.Sub fsys subdir = .error err →
      FileServerSubdir fileServer fsys subdir urlpath =
        .error ("internal error: fs.Sub: ".toList ++ err.Error)) ∧
    (∀ (subdir urlpath : Str) (subfs : FS), subdir ≠ [] →
      fs.Sub fsys subdir = .ok subfs →
      FileServerSubdir fileServer fsys subdir urlpath =
        .ok (FileServer fileServer subfs urlpath)) ∧
    (∀ (rootPath assets : Str) (err : FSError), fs.Sub fsys rootPath = .error err →
      NewVueSPA fileServer fsys rootPath assets = some (.error err)) ∧
    (∀ urlpath : Str,
      FileServerSubdir fileServer fsys [] urlpath =
        .ok (FileServer fileServer fsys.view urlpath)) ∧
    (∀ dir : Str, ValidPath dir = false →
      fs.Sub fsys dir = .error (.pathError "sub".toList dir errInvalid)) ∧
    (∀ dir : Str, fsys.Sub = none → ValidPath dir = true →
      fs.Sub fsys dir = .ok (if dir = ".".toList then fsys.view else subFS fsys.view dir)) := by
  refine ⟨?_, ?_, ?_, ?_, ?_, ?_⟩
  · intro subdir urlpath err hne hsub
    simp only [FileServerSubdir, if_neg hne, hsub]
  · intro subdir urlpath subfs hne hsub
    simp only [FileServerSubdir, if_neg hne, hsub]
  · intro rootPath assets err hsub
    simp only [NewVueSPA, hsub]
  · intro urlpath
    simp [FileServerSubdir]
  · intro dir hv
    exact fs_Sub_invalid fsys dir hv
  · intro dir hs hv
    obtain ⟨view, sub⟩ := fsys
    simp only at hs
    subst hs
    exact fs_Sub_valid view dir hv

/-- Witness for C8: the name "../secret" is rejected at construction. -/
theorem C8_construction_failure_witness :
    (FileServerSubdir listingFileServer ⟨emptyFS, none⟩ "../secret".toList "/".toList :
      Except Str (Handler Response)) =
      .error ("internal error: fs.Sub: ".toList ++
        (FSError.pathError "sub".toList "../secret".toList errInvalid).Error) :=
  (C8_construction_failure Response listingFileServer ⟨emptyFS, none⟩).1
    "../secret".toList "/".toList _ (by decide) rfl

/-! ## C10 -/

/-- C10, the code at the failing input: for the prefix "/static/" and the
directory path "/static/css/" the handler of `FileServer` does not answer 404
itself; it hands the request, with the path stripped to "css/", to the
underlying file server, whatever that is.  With a file server that lists
directories, the listing of `css` goes out with status 200. -/
theorem C10_directory_below_prefix_served :
    (∀ (W : Type) [ResponseWriter W] (fileServer : httpFileSystem → Handler W) (fsys : FS)
        (w : W) (meth addr ua : Str) (c : Context) (s : World),
      FileServer fileServer fsys "/static/".toList w
          ⟨meth, "/static/css/".toList, addr, ua, c⟩ s =
        fileServer (http.FS fsys) w ⟨meth, "css/".toList, addr, ua, c⟩ s) ∧
    (FileServer listingFileServer
        (tableFS [("css/a.css".toList, "a".toList), ("css/b.css".toList, "b".toList)])
        "/static/".toList Response.fresh
        ⟨"GET".toList, "/static/css/".toList, [], [], Context.background⟩ ⟨0, 0, []⟩).map
      (fun o => (o.1.status, o.1.body, o.2.log)) =
      some (200, "a.css\nb.css".toList, []) := by
  constructor
  · intro W _ fileServer fsys w meth addr ua c s
    rfl
  · rfl

/-! ## The router of `NewVueSPA` -/

theorem cleanPath_rooted (p : Str) : ∃ t, cleanPath p = '/' :: t := by
  unfold cleanPath
  by_cases h : p = []
  · exact ⟨[], by rw [if_pos h]; rfl⟩
  · rw [if_neg h]
    simp only [path.Clean]
    split_ifs <;> exact ⟨_, rfl⟩

theorem normAssets_shape (a : Str) : ∃ t, normAssets a = t ++ ['/'] := by
  unfold normAssets
  by_cases h : HasSuffix a "/".toList = true
  · obtain ⟨t, ht⟩ := (HasSuffix_iff a _).mp h
    refine ⟨t, ?_⟩
    rw [h]
    exact ht.symm
  · have h' : HasSuffix a "/".toList = false := by simpa using h
    refine ⟨a, ?_⟩
    rw [h']
    rfl

theorem lookup_two {W : Type} (h1 h2 : Handler W) (a b p : Str) :
    ServeMux.lookup ⟨[⟨h1, a⟩, ⟨h2, b⟩]⟩ p =
      if a = p then some ⟨h1, a⟩ else if b = p then some ⟨h2, b⟩ else none := by
  unfold ServeMux.lookup
  by_cases ha : a = p
  · simp [List.find?, ha]
  · have ha' : (a == p) = false := by simpa using ha
    by_cases hb : b = p
    · have hb' : (b == p) = true := by simpa using hb
      simp only [List.find?, ha', hb', if_neg ha, if_pos hb]
    · have hb' : (b == p) = false := by simpa using hb
      simp only [List.find?, ha', hb', if_neg ha, if_neg hb]

theorem shouldRedirect_two {W : Type} (h1 h2 : Handler W) (t p : Str)
    (hne : p ++ ['/'] ≠ '/' :: (t ++ ['/'])) :
    ServeMux.shouldRedirect ⟨[⟨h1, '/' :: (t ++ ['/'])⟩, ⟨h2, ['/']⟩]⟩ p = false := by
  unfold ServeMux.shouldRedirect
  rw [lookup_two, lookup_two]
  by_cases hp0 : p = []
  · subst hp0
    split
    · rfl
    · rfl
  · have hA : ¬ ('/' :: (t ++ ['/']) = p ++ "/".toList) := fun h => hne h.symm
    have hB : ¬ (['/'] = p ++ "/".toList) := by
      intro h
      have := congrArg List.length h
      simp at this
      exact hp0 this
    rw [if_neg hA, if_neg hB]
    simp only [Option.isSome_none, Bool.false_eq_true, if_false]
    split_ifs <;> rfl

theorem longest_two {W : Type} (h1 h2 : Handler W) (t u : Str) :
    ServeMux.longest ('/' :: u) [⟨h1, '/' :: (t ++ ['/'])⟩, ⟨h2, ['/']⟩] none =
      if '/' :: (t ++ ['/']) <+: '/' :: u then some ⟨h1, '/' :: (t ++ ['/'])⟩
      else some ⟨h2, ['/']⟩ := by
  have hlast : ('/' :: (t ++ ['/'])).getLast? = some '/' := by
    simp [List.getLast?_cons]
  have hroot : HasPrefix ('/' :: u) ['/'] = true := by simp [HasPrefix]
  have hlen : ¬ (('/' :: (t ++ ['/'])).length < (['/'] : Str).length) := by simp
  by_cases hp : '/' :: (t ++ ['/']) <+: '/' :: u
  · have hP : HasPrefix ('/' :: u) ('/' :: (t ++ ['/'])) = true := (HasPrefix_iff _ _).mpr hp
    rw [if_pos hp]
    simp only [ServeMux.longest, hlast, hP, hroot, Option.all_none, Option.all_some, and_self,
      if_true, decide_eq_true_eq, hlen, and_false, if_false, List.getLast?_singleton]
  · have hP : ¬ HasPrefix ('/' :: u) ('/' :: (t ++ ['/'])) = true := by
      rw [HasPrefix_iff]; exact hp
    rw [if_neg hp]
    simp only [ServeMux.longest, hlast, hP, hroot, Option.all_none, and_self, and_true,
      false_and, and_false, if_true, if_false, List.getLast?_singleton, Bool.false_eq_true]

theorem handler_two {W : Type} (h1 h2 : Handler W) (t u : Str) :
    ServeMux.handler ⟨[⟨h1, '/' :: (t ++ ['/'])⟩, ⟨h2, ['/']⟩]⟩ ('/' :: u) =
      if '/' :: (t ++ ['/']) <+: '/' :: u then .serve h1 ('/' :: (t ++ ['/']))
      else .serve h2 ['/'] := by
  unfold ServeMux.handler ServeMux.matchPath
  rw [lookup_two]
  by_cases ha : '/' :: (t ++ ['/']) = '/' :: u
  · have hp : '/' :: (t ++ ['/']) <+: '/' :: u := ha ▸ List.prefix_refl _
    rw [if_pos ha, if_pos hp]
  · rw [if_neg ha]
    by_cases hb : (['/'] : Str) = '/' :: u
    · have hp : ¬ '/' :: (t ++ ['/']) <+: '/' :: u := by
        rw [← hb]
        intro h
        have := h.length_le
        simp at this
      rw [if_pos hb, if_neg hp]
    · rw [if_neg hb]
      simp only [longest_two]
      split_ifs <;> rfl

theorem Handler_two {W : Type} (h1 h2 : Handler W) (t : Str) (r : Request)
    (hc : cleanPath r.Path = r.Path) (hne : r.Path ++ ['/'] ≠ '/' :: (t ++ ['/'])) :
    ServeMux.Handler ⟨[⟨h1, '/' :: (t ++ ['/'])⟩, ⟨h2, ['/']⟩]⟩ r =
      if '/' :: (t ++ ['/']) <+: r.Path then .serve h1 ('/' :: (t ++ ['/']))
      else .serve h2 ['/'] := by
  obtain ⟨u, hu⟩ := cleanPath_rooted r.Path
  rw [hc] at hu
  have hs := shouldRedirect_two h1 h2 t r.Path hne
  unfold ServeMux.Handler
  simp only [hc, hs, ne_eq, not_true_eq_false, if_false, Bool.false_eq_true, ite_self]
  rw [hu]
  exact handler_two h1 h2 t u

theorem Handle_some {W : Type} (mux m : ServeMux W) (pattern : Str) (h : Handler W)
    (hm : mux.Handle pattern h = some m) :
    plainPattern pattern = true ∧ m = ⟨mux.entries ++ [⟨h, pattern⟩]⟩ := by
  unfold ServeMux.Handle at hm
  split_ifs at hm with hc
  injection hm with hm
  refine ⟨?_, hm.symm⟩
  by_contra hp
  exact hc (Or.inr (Or.inr (by simpa using hp)))

theorem pattern_ne_root (a : Str) : "/".toList ++ normAssets a ≠ "/".toList := by
  obtain ⟨t, ht⟩ := normAssets_shape a
  rw [ht]
  intro h
  have := congrArg List.length h
  simp at this

/-- The router of a successful `NewVueSPA`: the view and the two registrations. -/
theorem NewVueSPA_ok {W : Type} [ResponseWriter W] (fileServer : httpFileSystem → Handler W)
    (fsys : FileSystem) (rootPath assets : Str) (mux : ServeMux W)
    (hmux : NewVueSPA fileServer fsys rootPath assets = some (.ok mux)) :
    ∃ rootfs, fs.Sub fsys rootPath = .ok rootfs ∧
      plainPattern ("/".toList ++ normAssets assets) = true ∧
      mux = ⟨[⟨Neuter "/".toList (fileServer (http.FS rootfs)), "/".toList ++ normAssets assets⟩,
        ⟨vueIndexHandler rootfs, "/".toList⟩]⟩ := by
  unfold NewVueSPA at hmux
  cases hsub : fs.Sub fsys rootPath with
  | error e =>
    rw [hsub] at hmux
    simp only [Option.some.injEq] at hmux
    cases hmux
  | ok rootfs =>
    rw [hsub] at hmux
    simp only at hmux
    cases h1 : (http.NewServeMux : ServeMux W).Handle ("/".toList ++ normAssets assets)
        (Neuter "/".toList (fileServer (http.FS rootfs))) with
    | none => rw [h1] at hmux; cases hmux
    | some m1 =>
      rw [h1] at hmux
      simp only at hmux
      cases h2 : m1.Handle "/".toList (vueIndexHandler rootfs) with
      | none => rw [h2] at hmux; cases hmux
      | some m2 =>
        rw [h2] at hmux
        simp only [Option.some.injEq, Except.ok.injEq] at hmux
        obtain ⟨hp, hm1⟩ := Handle_some _ _ _ _ h1
        obtain ⟨_, hm2⟩ := Handle_some _ _ _ _ h2
        refine ⟨rootfs, rfl, hp, ?_⟩
        rw [← hmux, hm2, hm1]
        rfl

/-- A plain assets pattern and a root that `fs.Sub` accepts give the router
with the two registrations. -/
theorem NewVueSPA_plain {W : Type} [ResponseWriter W] (fileServer : httpFileSystem → Handler W)
    (fsys : FileSystem) (rootPath assets : Str) (rootfs : FS)
    (hsub : fs.Sub fsys rootPath = .ok rootfs)
    (hp : plainPattern ("/".toList ++ normAssets assets) = true) :
    NewVueSPA fileServer fsys rootPath assets =
      some (.ok ⟨[⟨Neuter "/".toList (fileServer (http.FS rootfs)),
          "/".toList ++ normAssets assets⟩,
        ⟨vueIndexHandler rootfs, "/".toList⟩]⟩) := by
  have hne := pattern_ne_root assets
  have hne' : ("/".toList ++ normAssets assets == "/".toList) = false := by
    simpa using hne
  have h1 : (http.NewServeMux : ServeMux W).Handle ("/".toList ++ normAssets assets)
      (Neuter "/".toList (fileServer (http.FS rootfs))) =
      some ⟨[⟨Neuter "/".toList (fileServer (http.FS rootfs)),
        "/".toList ++ normAssets assets⟩]⟩ := by
    unfold ServeMux.Handle
    rw [if_neg]
    · rfl
    · rintro (h | h | h)
      · exact absurd h (by simp)
      · exact absurd h (by simp [http.NewServeMux])
      · rw [hp] at h; exact absurd h (by decide)
  have hroot : plainPattern "/".toList = true := by decide
  have h2 : (ServeMux.mk [⟨Neuter "/".toList (fileServer (http.FS rootfs)),
        "/".toList ++ normAssets assets⟩] : ServeMux W).Handle "/".toList
        (vueIndexHandler rootfs) =
      some ⟨[⟨Neuter "/".toList (fileServer (http.FS rootfs)),
          "/".toList ++ normAssets assets⟩,
        ⟨vueIndexHandler rootfs, "/".toList⟩]⟩ := by
    unfold ServeMux.Handle
    rw [if_neg]
    · rfl
    · rintro (h | h | h)
      · exact absurd h (by decide)
      · simp only [List.any_cons, List.any_nil, Bool.or_false, hne', Bool.false_eq_true] at h
      · rw [hroot] at h; exact absurd h (by decide)
  unfold NewVueSPA
  simp only [hsub, h1, h2]

theorem ValidPath_ne_nil (name : Str) (h : ValidPath name = true) : name ≠ [] := by
  intro hn
  rw [hn] at h
  exact absurd h (by decide)

theorem subFS_Open (fsys : FS) (dir name : Str) (hv : ValidPath name = true)
    (hn : name ≠ ".".toList) :
    http.FS (subFS fsys dir) ('/' :: name) =
      match fsys.Open (dir ++ "/".toList ++ name) with
      | .error e => .error (fixErr dir e)
      | .ok f => .ok f := by
  have h0 := ValidPath_ne_nil name hv
  have h1 : ('/' :: name) ≠ "/".toList := by
    intro h
    injection h with _ h
    exact h0 h
  have h2 : TrimPrefix ('/' :: name) "/".toList = name := by
    simp [TrimPrefix, HasPrefix]
  simp only [http.FS, if_neg h1, h2, subFS, subFS.fullName, hv, Bool.not_true, Bool.false_eq_true,
    if_false, pathJoin, if_neg hn]

theorem vueIndexHandler_eq {W : Type} [ResponseWriter W] (fsys : FS) (w : W) (r : Request)
    (s : World) :
    vueIndexHandler fsys w r s =
      match fs.ReadFile fsys
          (if r.Path = "/favicon.ico".toList then "favicon.ico".toList
            else "index.html".toList) with
      | .ok content => some (ResponseWriter.Write w content, s)
      | .error err => some (http.Error w err.Error 500, s) := by
  by_cases h : r.Path = "/favicon.ico".toList
  · simp only [vueIndexHandler, h, if_true]
    cases fs.ReadFile fsys "favicon.ico".toList <;> rfl
  · simp only [vueIndexHandler, h, if_false]
    cases fs.ReadFile fsys "index.html".toList <;> rfl

theorem listingFileServer_file {W : Type} [ResponseWriter W] (root : httpFileSystem) (w : W)
    (r : Request) (s : World) (data : Str)
    (h : root (path.Clean (if HasPrefix r.Path "/".toList then r.Path else '/' :: r.Path)) =
      .ok (.file data)) :
    listingFileServer root w r s = some (ResponseWriter.Write w data, s) := by
  unfold listingFileServer
  simp only [h]

/-! ## C3 -/

/-- C3, refuted as stated: in the router for root "app/dist" and assets
"assets", the path "/assets" does not begin with "/assets/" and yet is not
dispatched to the fallback handler: the multiplexer redirects it to
"/assets/"; likewise the path "/some//route", not in canonical form, is
redirected to "/some/route" and reaches no registered handler. -/
theorem C3_routing_counterexample :
    (match (NewVueSPA listingFileServer ⟨emptyFS, none⟩ "app/dist".toList "assets".toList :
        Option (Except FSError (ServeMux Response))) with
      | some (.ok mux) =>
        some (Route.redirect? (mux.Handler
            ⟨"GET".toList, "/assets".toList, [], [], Context.background⟩),
          Route.pattern? (mux.Handler
            ⟨"GET".toList, "/assets".toList, [], [], Context.background⟩),
          Route.redirect? (mux.Handler
            ⟨"GET".toList, "/some//route".toList, [], [], Context.background⟩),
          Route.pattern? (mux.Handler
            ⟨"GET".toList, "/some//route".toList, [], [], Context.background⟩))
      | _ => none) =
      some (some "/assets/".toList, none, some "/some/route".toList, none) := by
  rfl

/-- C3, amended: `NewVueSPA(fsys, root, assets)` with a root that `fs.Sub`
accepts and a plain assets pattern returns a router, and in every router it
returns, for every request whose path is in canonical form (`cleanPath` leaves
it unchanged) and is not the assets prefix without its trailing slash: a path
that begins with "/" + the normalised assets name is dispatched to
`Neuter("/", fileServer)` over the view rooted at `root`, registered without
prefix stripping, and every other path is dispatched to the fallback handler
over that view.  The assets name is normalised by appending "/" unless it
ends with one.  The file server's view opens the name `n` of a request path
"/" + `n` as `root` + "/" + `n` in `fsys`.  So with root "app/dist" and assets
"assets", and a file server that writes out the file it opens,
"/assets/js/app.js" is answered with the bytes of app/dist/assets/js/app.js,
"/favicon.ico" with those of app/dist/favicon.ico and "/some/client/route"
with those of app/dist/index.html. -/
theorem C3_spa_routing :
    (∀ (W : Type) [ResponseWriter W] (fileServer : httpFileSystem → Handler W)
        (fsys : FileSystem) (rootPath assets : Str) (mux : ServeMux W),
      NewVueSPA fileServer fsys rootPath assets = some (.ok mux) →
      ∃ rootfs, fs.Sub fsys rootPath = .ok rootfs ∧
        ∀ r : Request, cleanPath r.Path = r.Path →
          r.Path ++ "/".toList ≠ "/".toList ++ normAssets assets →
          mux.Handler r =
            if "/".toList ++ normAssets assets <+: r.Path then
              .serve (Neuter "/".toList (fileServer (http.FS rootfs)))
                ("/".toList ++ normAssets assets)
            else .serve (vueIndexHandler rootfs) "/".toList) ∧
    (∀ (W : Type) [ResponseWriter W] (fileServer : httpFileSystem → Handler W)
        (fsys : FileSystem) (rootPath assets : Str) (rootfs : FS),
      fs.Sub fsys rootPath = .ok rootfs →
      plainPattern ("/".toList ++ normAssets assets) = true →
      ∃ mux, NewVueSPA fileServer fsys rootPath assets = some (.ok mux)) ∧
    (∀ (view : FS) (rootPath name : Str), ValidPath rootPath = true →
      rootPath ≠ ".".toList → ValidPath name = true → name ≠ ".".toList →
      ∃ rootfs, fs.Sub ⟨view, none⟩ rootPath = .ok rootfs ∧
        http.FS rootfs ('/' :: name) =
          match view.Open (rootPath ++ "/".toList ++ name) with
          | .error e => .error (fixErr rootPath e)
          | .ok f => .ok f) ∧
    (∀ assets : Str, HasSuffix assets "/".toList = false →
      "/".toList ++ normAssets assets = "/".toList ++ assets ++ "/".toList) ∧
    (∀ assets : Str, HasSuffix assets "/".toList = true →
      "/".toList ++ normAssets assets = "/".toList ++ assets) ∧
    (∀ (view : FS) (data : Str) (s : World),
      view.Open "app/dist/assets/js/app.js".toList = .ok (.file data) →
      (match (NewVueSPA listingFileServer ⟨view, none⟩ "app/dist".toList "assets".toList :
          Option (Except FSError (ServeMux Response))) with
        | some (.ok mux) =>
          (match mux.Handler
              ⟨"GET".toList, "/assets/js/app.js".toList, [], [], Context.background⟩ with
            | .serve h _ => h Response.fresh
                ⟨"GET".toList, "/assets/js/app.js".toList, [], [], Context.background⟩ s
            | _ => none)
        | _ => none) =
        some ({ header := [], wroteHeader := true, status := 200, body := data }, s)) ∧
    (∀ (view : FS) (data : Str) (s : World),
      view.ReadFile "app/dist/favicon.ico".toList = .ok data →
      (match (NewVueSPA listingFileServer ⟨view, none⟩ "app/dist".toList "assets".toList :
          Option (Except FSError (ServeMux Response))) with
        | some (.ok mux) =>
          (match mux.Handler
              ⟨"GET".toList, "/favicon.ico".toList, [], [], Context.background⟩ with
            | .serve h _ => h Response.fresh
                ⟨"GET".toList, "/favicon.ico".toList, [], [], Context.background⟩ s
            | _ => none)
        | _ => none) =
        some ({ header := [], wroteHeader := true, status := 200, body := data }, s)) ∧
    (∀ (view : FS) (data : Str) (s : World),
      view.ReadFile "app/dist/index.html".toList = .ok data →
      (match (NewVueSPA listingFileServer ⟨view, none⟩ "app/dist".toList "assets".toList :
          Option (Except FSError (ServeMux Response))) with
        | some (.ok mux) =>
          (match mux.Handler
              ⟨"GET".toList, "/some/client/route".toList, [], [], Context.background⟩ with
            | .serve h _ => h Response.fresh
                ⟨"GET".toList, "/some/client/route".toList, [], [], Context.background⟩ s
            | _ => none)
        | _ => none) =
        some ({ header := [], wroteHeader := true, status := 200, body := data }, s)) := by
  refine ⟨?_, ?_, ?_, ?_, ?_, ?_, ?_, ?_⟩
  · intro W _ fileServer fsys rootPath assets mux hmux
    obtain ⟨rootfs, hsub, _, hm⟩ := NewVueSPA_ok fileServer fsys rootPath assets mux hmux
    refine ⟨rootfs, hsub, ?_⟩
    intro r hc hne
    obtain ⟨t, ht⟩ := normAssets_shape assets
    rw [hm, ht]
    rw [ht] at hne
    exact Handler_two _ _ t r hc hne
  · intro W _ fileServer fsys rootPath assets rootfs hsub hp
    exact ⟨_, NewVueSPA_plain fileServer fsys rootPath assets rootfs hsub hp⟩
  · intro view rootPath name hr hd hv hn
    refine ⟨subFS view rootPath, ?_, subFS_Open view rootPath name hv hn⟩
    rw [fs_Sub_valid view rootPath hr, if_neg hd]
  · intro assets h
    simp only [normAssets, h, Bool.not_false, if_true, List.append_assoc]
  · intro assets h
    simp only [normAssets, h, Bool.not_true, Bool.false_eq_true, if_false]
  · intro view data s h
    have hopen : http.FS (subFS view "app/dist".toList) ('/' :: "assets/js/app.js".toList) =
        .ok (.file data) := by
      rw [subFS_Open view _ _ (by decide) (by decide)]
      exact (congrArg (fun x => match x with
        | .error e => Except.error (fixErr "app/dist".toList e)
        | .ok f => Except.ok f) h)
    exact listingFileServer_file (http.FS (subFS view "app/dist".toList)) Response.fresh
      ⟨"GET".toList, "/assets/js/app.js".toList, [], [], Context.background⟩ s data hopen
  · intro view data s h
    have hread : fs.ReadFile (subFS view "app/dist".toList) "favicon.ico".toList = .ok data :=
      (congrArg (fun x => match x with
        | .error e => Except.error (fixErr "app/dist".toList e)
        | .ok f => Except.ok f) h)
    have hv := vueIndexHandler_eq (subFS view "app/dist".toList) Response.fresh
      ⟨"GET".toList, "/favicon.ico".toList, [], [], Context.background⟩ s
    rw [if_pos rfl, hread] at hv
    exact hv
  · intro view data s h
    have hread : fs.ReadFile (subFS view "app/dist".toList) "index.html".toList = .ok data :=
      (congrArg (fun x => match x with
        | .error e => Except.error (fixErr "app/dist".toList e)
        | .ok f => Except.ok f) h)
    have hv := vueIndexHandler_eq (subFS view "app/dist".toList) Response.fresh
      ⟨"GET".toList, "/some/client/route".toList, [], [], Context.background⟩ s
    rw [if_neg (by decide), hread] at hv
    exact hv

/-- Witness for C3: the router for root "app/dist" and assets "assets" on the
request path "/assets/js/app.js", and the file it reads. -/
theorem C3_spa_routing_witness :
    (∃ rootfs, fs.Sub ⟨emptyFS, none⟩ "app/dist".toList = .ok rootfs ∧
      ((ServeMux.mk [⟨Neuter "/".toList (listingFileServer (http.FS (subFS emptyFS "app/dist".toList))),
            "/assets/".toList⟩,
          ⟨vueIndexHandler (subFS emptyFS "app/dist".toList), "/".toList⟩] :
          ServeMux Response).Handler
          ⟨"GET".toList, "/assets/js/app.js".toList, [], [], Context.background⟩ =
        if "/".toList ++ normAssets "assets".toList <+: "/assets/js/app.js".toList then
          .serve (Neuter "/".toList (listingFileServer (http.FS rootfs)))
            ("/".toList ++ normAssets "assets".toList)
        else .serve (vueIndexHandler rootfs) "/".toList)) ∧
    (match (NewVueSPA listingFileServer
          ⟨tableFS [("app/dist/assets/js/app.js".toList, "js".toList)], none⟩
          "app/dist".toList "assets".toList : Option (Except FSError (ServeMux Response))) with
      | some (.ok mux) =>
        (match mux.Handler
            ⟨"GET".toList, "/assets/js/app.js".toList, [], [], Context.background⟩ with
          | .serve h _ => h Response.fresh
              ⟨"GET".toList, "/assets/js/app.js".toList, [], [], Context.background⟩ ⟨0, 0, []⟩
          | _ => none)
      | _ => none) =
      some ({ header := [], wroteHeader := true, status := 200, body := "js".toList },
        ⟨0, 0, []⟩) :=
  ⟨(C3_spa_routing.1 Response listingFileServer ⟨emptyFS, none⟩ "app/dist".toList
      "assets".toList _ rfl).imp
      (fun _ h => ⟨h.1, h.2 ⟨"GET".toList, "/assets/js/app.js".toList, [], [],
        Context.background⟩ (by decide) (by decide)⟩),
    C3_spa_routing.2.2.2.2.2.1 (tableFS [("app/dist/assets/js/app.js".toList, "js".toList)])
      "js".toList ⟨0, 0, []⟩ rfl⟩

end Httpex
